import Mathlib

/-!
Shallow embedding of the client-side request-orchestration and
local-persistence layer of the translation assistant
(`src/services/gemini.ts` — the later of the two bundled versions, the one
the pages import, with auto-detection and `refineText` — and the storage
module providing `saveTranslation` / `getHistory` / `getAnalytics`, plus
the data model of `src/types.ts`).

Modelling conventions:
- The remote generative-model capability (`ai.models.generateContent`) is a
  collaborator: it is passed in as a function `generate : String → Except
  String (Option String)` from the prompt to either a thrown error, or a
  response whose optional `text` field may be missing (`none`).
- The persisted log (localStorage blob) is threaded explicitly as a
  `List TranslationRecord`, newest first, exactly as `getHistory` returns it.
- `crypto.randomUUID()` and `Date.now()` are environment inputs, passed as
  the `newId` and `now` arguments of the operation that consumes them.
- JavaScript's `x || d` on strings/undefined is `jsOrDefault`.
- Calendar dates (`toISOString().split('T')[0]`) are abstracted to integer
  epoch-day numbers: the record's day is `timestamp.fdiv 86400000` (the UTC
  day, floor division) and "today" is an integer parameter; equality and
  order of day numbers model equality and lexicographic order of the ISO
  date strings.
- Audio sample values are modelled as rationals; dividing a 16-bit integer
  by 32768 is exact in binary floating point, so ℚ is faithful here.
-/

namespace LinguistAI

/-- `types.ts`: the `type` field of a `TranslationRecord`,
`'text' | 'document' | 'voice'`. -/
inductive RecordType where
  | text
  | document
  | voice
deriving DecidableEq, Repr

/-- `types.ts`: `TranslationRecord`. Timestamps are milliseconds since
epoch (`Date.now()`), modelled as integers. -/
structure TranslationRecord where
  id : String
  sourceText : String
  translatedText : String
  sourceLang : String
  targetLang : String
  timestamp : Int
  type : RecordType
deriving DecidableEq, Repr

/-- `types.ts`: `Language`. -/
structure Language where
  code : String
  name : String
  flag : String
deriving DecidableEq, Repr

/-- `types.ts`: the static `LANGUAGES` table. -/
def LANGUAGES : List Language :=
  [ { code := "en", name := "English", flag := "🇺🇸" },
    { code := "ne", name := "Nepali", flag := "🇳🇵" },
    { code := "si", name := "Sinhala", flag := "🇱🇰" },
    { code := "es", name := "Spanish", flag := "🇪🇸" },
    { code := "fr", name := "French", flag := "🇫🇷" },
    { code := "de", name := "German", flag := "🇩🇪" },
    { code := "zh", name := "Chinese", flag := "🇨🇳" },
    { code := "ja", name := "Japanese", flag := "🇯🇵" } ]

/-- The fields of `saveTranslation`'s argument,
`Omit<TranslationRecord, 'id' | 'timestamp'>`. -/
structure NewTranslation where
  sourceText : String
  translatedText : String
  sourceLang : String
  targetLang : String
  type : RecordType
deriving DecidableEq, Repr

/-- `storage.ts` `saveTranslation`: builds the full record by assigning the
freshly generated id (`crypto.randomUUID()`, passed as `newId`) and the
current time (`Date.now()`, passed as `now`), prepends it to the history
(`history.unshift(newRecord)`) and persists the whole list. Returns the new
record together with the updated persisted log. -/
def saveTranslation (newId : String) (now : Int) (record : NewTranslation)
    (history : List TranslationRecord) :
    TranslationRecord × List TranslationRecord :=
  let newRecord : TranslationRecord :=
    { id := newId
      sourceText := record.sourceText
      translatedText := record.translatedText
      sourceLang := record.sourceLang
      targetLang := record.targetLang
      timestamp := now
      type := record.type }
  (newRecord, newRecord :: history)

/-- JavaScript `x || d` where `x : string | undefined`: `undefined` and the
empty string are falsy, everything else is returned as-is. -/
def jsOrDefault (x : Option String) (d : String) : String :=
  match x with
  | none => d
  | some s => if s = "" then d else s

/-- JavaScript `s.trim()`: strips leading and trailing whitespace,
realized on the character list. -/
def jsTrim (s : String) : String :=
  String.mk
    (((s.data.dropWhile Char.isWhitespace).reverse.dropWhile
      Char.isWhitespace).reverse)

/-- `response.text?.trim() || d`: the optional text field of a remote
response, trimmed, with `d` substituted for a missing or empty result. -/
def normalizeResponse (resp : Option String) (d : String) : String :=
  jsOrDefault (resp.map jsTrim) d

/-- The prompt template of `translateText` (the backtick template literal,
trailing spaces included). -/
def textPrompt (text sourceLang targetLang : String) : String :=
  "Translate the following text from " ++ sourceLang ++ " to " ++ targetLang
    ++ ". \n    Preserve meaning, correct grammar, and avoid literal translations. \n    Return ONLY the translated text, no preamble or markdown formatting.\n    \n    Text: \"" ++ text ++ "\""

/-- `gemini.ts` `translateText`: issues one generate call with the text
prompt; on a thrown remote error the catch block throws
`"Failed to translate text. Please try again."` (log untouched); otherwise
the trimmed-or-empty response text is saved as a full untruncated `text`
record and returned. -/
def translateText (newId : String) (now : Int)
    (text sourceLang targetLang : String)
    (generate : String → Except String (Option String))
    (history : List TranslationRecord) :
    Except String String × List TranslationRecord :=
  match generate (textPrompt text sourceLang targetLang) with
  | Except.error _ =>
      (Except.error "Failed to translate text. Please try again.", history)
  | Except.ok resp =>
      let translatedText := normalizeResponse resp ""
      let saved := saveTranslation newId now
        { sourceText := text
          translatedText := translatedText
          sourceLang := sourceLang
          targetLang := targetLang
          type := RecordType.text } history
      (Except.ok translatedText, saved.2)

/-- `gemini.ts` `translateDocumentContent`, the `sourceInstruction` local:
the auto sentinel (`'auto'` or `'Detect Language'`) selects an explicit
automatic-detection instruction; any other value is named as
`from ${sourceLang}`. -/
def docSourceInstruction (sourceLang : String) : String :=
  if sourceLang = "auto" ∨ sourceLang = "Detect Language" then
    "Detect the source language automatically"
  else
    "from " ++ sourceLang

/-- The prompt template of `translateDocumentContent` (trailing spaces of
the template literal included). -/
def docPrompt (sourceLang targetLang content : String) : String :=
  "Translate the following document content " ++ docSourceInstruction sourceLang
    ++ " to " ++ targetLang
    ++ ". \n    Maintain the original structure/paragraphs as much as possible.\n    \n    Document Content:\n    " ++ content

/-- JavaScript `s.substring(0, n)`: the first `n` characters of `s` (all of
`s` when it is shorter), realized on the character list. -/
def jsSubstring (s : String) (n : Nat) : String :=
  String.mk (s.data.take n)

/-- `gemini.ts` `translateDocumentContent`: one generate call with the
document prompt; the catch block throws `"Failed to translate document."`;
on success the record is saved with both texts truncated to
`substring(0, 100) + "..."`, `sourceLang` mapped from `'auto'` to
`'Auto'`, kind `document`, and the full translation is returned. -/
def translateDocumentContent (newId : String) (now : Int)
    (content sourceLang targetLang : String)
    (generate : String → Except String (Option String))
    (history : List TranslationRecord) :
    Except String String × List TranslationRecord :=
  match generate (docPrompt sourceLang targetLang content) with
  | Except.error _ =>
      (Except.error "Failed to translate document.", history)
  | Except.ok resp =>
      let translatedText := normalizeResponse resp ""
      let saved := saveTranslation newId now
        { sourceText := jsSubstring content 100 ++ "..."
          translatedText := jsSubstring translatedText 100 ++ "..."
          sourceLang := if sourceLang = "auto" then "Auto" else sourceLang
          targetLang := targetLang
          type := RecordType.document } history
      (Except.ok translatedText, saved.2)

/-- `gemini.ts` `refineText`: the four refine modes. -/
inductive RefineMode where
  | summarize
  | polish
  | formal
  | casual
deriving DecidableEq, Repr

/-- The per-mode instruction of `refineText`'s `switch`. -/
def refineInstruction : RefineMode → String
  | RefineMode.summarize =>
      "Summarize the following text concisely in the same language as the text:"
  | RefineMode.polish =>
      "Polish the following text to improve fluency, grammar, and vocabulary, keeping the meaning intact. Return only the polished text:"
  | RefineMode.formal =>
      "Rewrite the following text to be more formal and professional. Return only the rewritten text:"
  | RefineMode.casual =>
      "Rewrite the following text to be more casual and conversational. Return only the rewritten text:"

/-- The full request contents of `refineText`:
`` `${prompt}\n\n"${text}"` ``. -/
def refinePrompt (mode : RefineMode) (text : String) : String :=
  refineInstruction mode ++ "\n\n\"" ++ text ++ "\""

/-- `gemini.ts` `refineText`: one generate call with the mode-specific
instruction; `return response.text?.trim() || text` falls back to the
original text on an empty or missing result; the catch block throws
`"Failed to refine text."`. No `saveTranslation` call appears anywhere in
the function, so the log is returned unchanged on every path. -/
def refineText (text : String) (mode : RefineMode)
    (generate : String → Except String (Option String))
    (history : List TranslationRecord) :
    Except String String × List TranslationRecord :=
  match generate (refinePrompt mode text) with
  | Except.error _ => (Except.error "Failed to refine text.", history)
  | Except.ok resp => (Except.ok (normalizeResponse resp text), history)

/-! ### Activity log analytics (`storage.ts` `getAnalytics`) -/

/-- The key under which a record is counted in the language distribution:
`LANGUAGES.find(l => l.code === rec.targetLang)?.name || rec.targetLang`. -/
def langKey (r : TranslationRecord) : String :=
  jsOrDefault ((LANGUAGES.find? (fun l => l.code == r.targetLang)).map
    Language.name) r.targetLang

/-- `langCounts[key] = (langCounts[key] || 0) + 1` on a JavaScript object,
modelled as an insertion-ordered association list: an existing key is
incremented in place, a new key is appended at the end (JS objects preserve
insertion order of non-index string keys, and `Object.entries` reads them
back in that order). -/
def bumpKey (key : String) : List (String × Nat) → List (String × Nat)
  | [] => [(key, 1)]
  | (k, v) :: rest =>
      if k = key then (k, v + 1) :: rest else (k, v) :: bumpKey key rest

/-- The `languageDistribution` computation: one `forEach` pass over the
history bumping the language-keyed counter object, then `Object.entries`. -/
def languageDistribution (history : List TranslationRecord) :
    List (String × Nat) :=
  history.foldl (fun acc r => bumpKey (langKey r) acc) []

/-- The calendar day of a record:
`new Date(rec.timestamp).toISOString().split('T')[0]` abstracted to the UTC
epoch-day number, i.e. the floor of `timestamp / 86400000`. -/
def recDay (r : TranslationRecord) : Int :=
  Int.fdiv r.timestamp 86400000

/-- The pre-seeded `days` object: the loop `for (i = 6; i >= 0; i--)`
inserts the keys for today−6 … today, in that order, each with count 0. -/
def seedDays (today : Int) : List (Int × Nat) :=
  (List.range 7).map (fun (j : Nat) => (today - 6 + (j : Int), 0))

/-- `if (days[date] !== undefined) days[date]++`: increments the entry of
an existing key; a date outside the seeded window adds no key. -/
def bumpIfPresent (day : Int) (l : List (Int × Nat)) : List (Int × Nat) :=
  l.map (fun p => if p.1 = day then (p.1, p.2 + 1) else p)

/-- The `dailyActivity` computation: seed the 7-day window ending today,
then one `forEach` pass over the history bumping the day of each record
that falls inside the window. -/
def dailyActivity (today : Int) (history : List TranslationRecord) :
    List (Int × Nat) :=
  history.foldl (fun acc r => bumpIfPresent (recDay r) acc) (seedDays today)

/-- `types.ts` `AnalyticsData`, with dates abstracted to epoch-day
numbers. -/
structure AnalyticsData where
  totalTranslations : Nat
  languageDistribution : List (String × Nat)
  dailyActivity : List (Int × Nat)
deriving DecidableEq, Repr

/-- `storage.ts` `getAnalytics`: derives the analytics view from the
persisted history in one pass per aggregate; `today` is the current date
(`new Date()`), as an epoch-day number. -/
def getAnalytics (today : Int) (history : List TranslationRecord) :
    AnalyticsData :=
  { totalTranslations := history.length
    languageDistribution := languageDistribution history
    dailyActivity := dailyActivity today history }

/-! ### Audio pipeline (`gemini.ts` `decodeAudioData`) -/

/-- The two's-complement little-endian byte pair of a 16-bit sample: low
byte first, then high byte (how an `Int16Array` element sits in the
underlying buffer on a little-endian platform). -/
def int16ToBytes (s : Int) : List Nat :=
  [(s % 65536).toNat % 256, (s % 65536).toNat / 256]

/-- Reading one `Int16Array` element from its two bytes: the unsigned
little-endian value, reinterpreted as a signed 16-bit integer. -/
def toSigned16 (lo hi : Nat) : Int :=
  if lo + 256 * hi < 32768 then ((lo + 256 * hi : Nat) : Int)
  else ((lo + 256 * hi : Nat) : Int) - 65536

/-- `new Int16Array(data.buffer)`: the byte stream read as consecutive
little-endian signed 16-bit integers. -/
def bytesToInt16List : List Nat → List Int
  | lo :: hi :: rest => toSigned16 lo hi :: bytesToInt16List rest
  | _ => []

/-- The playable buffer produced by `ctx.createBuffer` and filled by
`decodeAudioData`: per-channel normalized samples, with the requested
sample rate as metadata. Sample values are rationals (division of a 16-bit
integer by 32768 is exact in floating point). -/
structure AudioBuffer where
  sampleRate : Nat
  channelData : List (List ℚ)
deriving DecidableEq, Repr

/-- `gemini.ts` `decodeAudioData`: reinterprets the raw bytes as 16-bit
little-endian signed PCM, computes `frameCount = dataInt16.length /
numChannels`, and fills channel `channel` at frame `i` with
`dataInt16[i * numChannels + channel] / 32768.0`. -/
def decodeAudioData (data : List Nat) (sampleRate numChannels : Nat) :
    AudioBuffer :=
  let dataInt16 := bytesToInt16List data
  let frameCount := dataInt16.length / numChannels
  { sampleRate := sampleRate
    channelData := (List.range numChannels).map (fun channel =>
      (List.range frameCount).map (fun i =>
        ((dataInt16.getD (i * numChannels + channel) 0 : Int) : ℚ) / 32768)) }

/-- Modelled from the spec: the repository has no PCM encoder — the spec's
round-trip property `decodeAudio(encodePCM(samples), rate, channels)` names
a hypothetical inverse. Per the spec's description of the wire format
(\"16-bit little-endian signed PCM\", interleaved), `encodePCM` lays the
per-channel sample lists out frame by frame, each frame holding one
little-endian two's-complement 16-bit sample per channel. -/
def encodePCM (channels : List (List Int)) (frameCount : Nat) : List Nat :=
  (List.range frameCount).flatMap (fun i =>
    channels.flatMap (fun ch => int16ToBytes (ch.getD i 0)))

/-! ### Helper lemmas -/

/-- The stored document text `substring(0, 100) + "..."` is at most 103
characters long. -/
theorem jsSubstring_ellipsis_length_le (s : String) :
    (jsSubstring s 100 ++ "...").length ≤ 103 := by
  simp only [jsSubstring, String.length_append, String.length_mk,
    List.length_take]
  have h3 : ("..." : String).length = 3 := rfl
  omega

/-- The length of the stored document text, exactly. -/
theorem jsSubstring_ellipsis_length (s : String) :
    (jsSubstring s 100 ++ "...").length = min 100 s.length + 3 := by
  simp only [jsSubstring, String.length_append, String.length_mk,
    List.length_take]
  have h3 : ("..." : String).length = 3 := rfl
  have hd : s.data.length = s.length := rfl
  omega

/-! ### C1 -/

/-- C1 counterexample: when the remote call succeeds but the trimmed text
is empty, `translateText` does not fail — at input `"hello"` with a
whitespace-only remote result it returns `Except.ok ""`, an empty string,
contradicting the claim that an empty result always fails with
`RemoteCallError` and an empty string is never returned. -/
theorem translateText_empty_result_returns_ok_empty :
    (translateText "id1" 5 "hello" "English" "French"
      (fun _ => Except.ok (some "   ")) []).1 = Except.ok "" := by
  rfl

/-- C1 (amended): if the remote generate call throws, `translateText`
fails with the `RemoteCallError` message and leaves the log unchanged;
but if the call succeeds with an empty/missing text result, it returns
the empty string (and still appends a record whose `translatedText` is
empty) rather than failing. -/
theorem translateText_error_and_empty_behavior
    (newId : String) (now : Int) (text sourceLang targetLang : String)
    (generate : String → Except String (Option String))
    (history : List TranslationRecord) :
    (∀ e, generate (textPrompt text sourceLang targetLang) = Except.error e →
      translateText newId now text sourceLang targetLang generate history =
        (Except.error "Failed to translate text. Please try again.",
          history)) ∧
    (∀ resp,
      generate (textPrompt text sourceLang targetLang) = Except.ok resp →
      normalizeResponse resp "" = "" →
      (translateText newId now text sourceLang targetLang generate
          history).1 = Except.ok "" ∧
      ∃ rec,
        (translateText newId now text sourceLang targetLang generate
            history).2 = rec :: history ∧
        rec.translatedText = "") := by
  constructor
  · intro e he
    simp [translateText, he]
  · intro resp hr hempty
    refine ⟨by simp [translateText, hr, hempty], ?_⟩
    refine ⟨{ id := newId
              sourceText := text
              translatedText := normalizeResponse resp ""
              sourceLang := sourceLang
              targetLang := targetLang
              timestamp := now
              type := RecordType.text },
      by simp [translateText, hr, saveTranslation], hempty⟩

/-- Witness for C1 (amended): a thrown remote error fails with the fixed
message, and an `ok` response with a missing text field yields
`Except.ok ""`. -/
theorem translateText_error_and_empty_behavior_witness :
    translateText "id1" 5 "hi" "en" "fr" (fun _ => Except.error "network")
        [] =
      (Except.error "Failed to translate text. Please try again.", []) ∧
    (translateText "id1" 5 "hi" "en" "fr" (fun _ => Except.ok none) []).1 =
      Except.ok "" :=
  ⟨(translateText_error_and_empty_behavior "id1" 5 "hi" "en" "fr"
      (fun _ => Except.error "network") []).1 "network" rfl,
   ((translateText_error_and_empty_behavior "id1" 5 "hi" "en" "fr"
      (fun _ => Except.ok none) []).2 none rfl rfl).1⟩

/-! ### C2 -/

/-- C2: on any successful remote call, `translateText` returns the
normalized translation and the new log is the old one with a fresh head
record of kind `text`, whose `sourceText` is the full untruncated input,
whose `translatedText` is the full untruncated returned translation, and
whose id and timestamp are the ones assigned at write time. -/
theorem translateText_success_appends_head_record
    (newId : String) (now : Int) (text sourceLang targetLang : String)
    (generate : String → Except String (Option String))
    (history : List TranslationRecord) (resp : Option String)
    (hok : generate (textPrompt text sourceLang targetLang) =
      Except.ok resp) :
    ∃ out : String,
      translateText newId now text sourceLang targetLang generate history =
        (Except.ok out,
          { id := newId
            sourceText := text
            translatedText := out
            sourceLang := sourceLang
            targetLang := targetLang
            timestamp := now
            type := RecordType.text } :: history) := by
  refine ⟨normalizeResponse resp "", ?_⟩
  simp [translateText, hok, saveTranslation]

/-- Witness for C2 at a concrete successful call. -/
theorem translateText_success_appends_head_record_witness :
    ∃ out : String,
      translateText "id1" 5 "hello" "English" "French"
          (fun _ => Except.ok (some "  bonjour  ")) [] =
        (Except.ok out,
          [{ id := "id1"
             sourceText := "hello"
             translatedText := out
             sourceLang := "English"
             targetLang := "French"
             timestamp := 5
             type := RecordType.text }]) :=
  translateText_success_appends_head_record "id1" 5 "hello" "English"
    "French" (fun _ => Except.ok (some "  bonjour  ")) []
    (some "  bonjour  ") rfl

/-! ### C3 -/

/-- C3: every record appended by `translateDocumentContent` stores a
`sourceText` and a `translatedText` of at most 103 characters (a prefix of
at most 100 characters plus the three-character ellipsis). -/
theorem translateDocumentContent_truncates_stored_text
    (newId : String) (now : Int) (content sourceLang targetLang : String)
    (generate : String → Except String (Option String))
    (history : List TranslationRecord) (resp : Option String)
    (hok : generate (docPrompt sourceLang targetLang content) =
      Except.ok resp) :
    ∃ rec,
      (translateDocumentContent newId now content sourceLang targetLang
          generate history).2 = rec :: history ∧
      rec.type = RecordType.document ∧
      rec.sourceText.length ≤ 103 ∧
      rec.translatedText.length ≤ 103 := by
  refine ⟨{ id := newId
            sourceText := jsSubstring content 100 ++ "..."
            translatedText :=
              jsSubstring (normalizeResponse resp "") 100 ++ "..."
            sourceLang := if sourceLang = "auto" then "Auto" else sourceLang
            targetLang := targetLang
            timestamp := now
            type := RecordType.document },
    by simp [translateDocumentContent, hok, saveTranslation], rfl, ?_, ?_⟩
  · exact jsSubstring_ellipsis_length_le content
  · exact jsSubstring_ellipsis_length_le _

/-- Witness for C3 at a concrete successful document translation. -/
theorem translateDocumentContent_truncates_stored_text_witness :
    ∃ rec,
      (translateDocumentContent "id1" 5 "short doc" "auto" "English"
          (fun _ => Except.ok (some "kurzes Dokument")) []).2 = [rec] ∧
      rec.type = RecordType.document ∧
      rec.sourceText.length ≤ 103 ∧
      rec.translatedText.length ≤ 103 :=
  translateDocumentContent_truncates_stored_text "id1" 5 "short doc"
    "auto" "English" (fun _ => Except.ok (some "kurzes Dokument")) []
    (some "kurzes Dokument") rfl

/-! ### C9 -/

/-- C9: the record appended by `translateDocumentContent` always stores a
`sourceText` and `translatedText` ending in the three characters `"..."`,
even when the content is shorter than 100 characters, and content shorter
than 100 characters is never stored verbatim. -/
theorem translateDocumentContent_stores_ellipsis_suffix
    (newId : String) (now : Int) (content sourceLang targetLang : String)
    (generate : String → Except String (Option String))
    (history : List TranslationRecord) (resp : Option String)
    (hok : generate (docPrompt sourceLang targetLang content) =
      Except.ok resp) :
    ∃ rec,
      (translateDocumentContent newId now content sourceLang targetLang
          generate history).2 = rec :: history ∧
      (∃ p, rec.sourceText = p ++ "...") ∧
      (∃ q, rec.translatedText = q ++ "...") ∧
      (content.length < 100 → rec.sourceText ≠ content) := by
  refine ⟨{ id := newId
            sourceText := jsSubstring content 100 ++ "..."
            translatedText :=
              jsSubstring (normalizeResponse resp "") 100 ++ "..."
            sourceLang := if sourceLang = "auto" then "Auto" else sourceLang
            targetLang := targetLang
            timestamp := now
            type := RecordType.document },
    by simp [translateDocumentContent, hok, saveTranslation],
    ⟨_, rfl⟩, ⟨_, rfl⟩, ?_⟩
  intro hshort heq
  have hlen := congrArg String.length heq
  rw [jsSubstring_ellipsis_length] at hlen
  omega

/-- Witness for C9: a 9-character document body is stored as
`"short doc..."`, not verbatim. -/
theorem translateDocumentContent_stores_ellipsis_suffix_witness :
    ∃ rec,
      (translateDocumentContent "id1" 5 "short doc" "auto" "English"
          (fun _ => Except.ok (some "kurzes Dokument")) []).2 = [rec] ∧
      (∃ p, rec.sourceText = p ++ "...") ∧
      (∃ q, rec.translatedText = q ++ "...") ∧
      ("short doc".length < 100 → rec.sourceText ≠ "short doc") :=
  translateDocumentContent_stores_ellipsis_suffix "id1" 5 "short doc"
    "auto" "English" (fun _ => Except.ok (some "kurzes Dokument")) []
    (some "kurzes Dokument") rfl

/-! ### C4 -/

/-- The automatic-detection instruction never has the shape of a named
source-language instruction `from ${lang}`. -/
theorem detect_instruction_ne_from (l : String) :
    "Detect the source language automatically" ≠ "from " ++ l := by
  intro h
  have h0 : ("Detect the source language automatically" : String).data.take 5
      = ("from " ++ l : String).data.take 5 := by rw [h]
  rw [String.data_append,
    List.take_append_of_le_length (by decide)] at h0
  exact absurd h0 (by decide)

/-- C4: with the auto sentinel (`'auto'` or `'Detect Language'`) the
source-language instruction of the document prompt is the explicit
automatic-detection sentence and is not of the form `from ${lang}` for any
language; with a named source language it is exactly `from ${sourceLang}`;
and the instruction occurs verbatim inside the prompt sent to the remote
model. -/
theorem translateDocumentContent_auto_prompt
    (sourceLang targetLang content : String) :
    ((sourceLang = "auto" ∨ sourceLang = "Detect Language") →
      docSourceInstruction sourceLang =
        "Detect the source language automatically" ∧
      ∀ l : String, docSourceInstruction sourceLang ≠ "from " ++ l) ∧
    (sourceLang ≠ "auto" → sourceLang ≠ "Detect Language" →
      docSourceInstruction sourceLang = "from " ++ sourceLang) ∧
    (docSourceInstruction sourceLang).data <:+:
      (docPrompt sourceLang targetLang content).data := by
  refine ⟨?_, ?_, ?_⟩
  · intro h
    rw [docSourceInstruction, if_pos h]
    exact ⟨rfl, detect_instruction_ne_from⟩
  · intro h1 h2
    rw [docSourceInstruction, if_neg (not_or.mpr ⟨h1, h2⟩)]
  · simp only [docPrompt, String.data_append, List.append_assoc]
    exact List.infix_append' _ _ _

/-- Witness for C4: the auto sentinel produces the detection instruction,
and the named language `"Spanish"` produces `from Spanish`. -/
theorem translateDocumentContent_auto_prompt_witness :
    docSourceInstruction "auto" =
      "Detect the source language automatically" ∧
    docSourceInstruction "Spanish" = "from " ++ "Spanish" :=
  ⟨((translateDocumentContent_auto_prompt "auto" "English" "body").1
      (Or.inl rfl)).1,
   (translateDocumentContent_auto_prompt "Spanish" "English" "body").2.1
      (by decide) (by decide)⟩

/-! ### C6 -/

/-- C6 counterexample: with empty input text and an empty remote result,
`refineText` returns `Except.ok ""` — an empty string — so the claim's
"it never returns an empty string" fails (the first part still holds: the
returned value equals the original input unchanged). -/
theorem refineText_empty_input_returns_empty :
    (refineText "" RefineMode.polish (fun _ => Except.ok (some "")) []).1 =
      Except.ok "" := by
  rfl

/-- C6 (amended): when the remote call succeeds but the trimmed result is
empty or missing, `refineText` returns the original input text unchanged;
consequently it returns an empty string only when the input itself is
empty — for nonempty input the result is never empty. -/
theorem refineText_empty_result_returns_original
    (text : String) (mode : RefineMode)
    (generate : String → Except String (Option String))
    (history : List TranslationRecord) (resp : Option String)
    (hok : generate (refinePrompt mode text) = Except.ok resp) :
    ((resp.map jsTrim).getD "" = "" →
      (refineText text mode generate history).1 = Except.ok text) ∧
    (text ≠ "" →
      (refineText text mode generate history).1 ≠ Except.ok "") := by
  have heval : (refineText text mode generate history).1 =
      Except.ok (normalizeResponse resp text) := by
    simp [refineText, hok]
  constructor
  · intro hempty
    rw [heval]
    cases resp with
    | none => rfl
    | some s =>
        have hs : jsTrim s = "" := by simpa using hempty
        simp [normalizeResponse, jsOrDefault, hs]
  · intro htext
    rw [heval]
    cases resp with
    | none => simpa [normalizeResponse, jsOrDefault] using htext
    | some s =>
        by_cases hs : jsTrim s = "" <;>
          simp [normalizeResponse, jsOrDefault, hs, htext]

/-- Witness for C6 (amended): a whitespace-only remote result leaves the
nonempty input `"hi"` unchanged and in particular nonempty. -/
theorem refineText_empty_result_returns_original_witness :
    (refineText "hi" RefineMode.polish (fun _ => Except.ok (some "  "))
        []).1 = Except.ok "hi" ∧
    (refineText "hi" RefineMode.polish (fun _ => Except.ok (some "  "))
        []).1 ≠ Except.ok "" :=
  ⟨(refineText_empty_result_returns_original "hi" RefineMode.polish
      (fun _ => Except.ok (some "  ")) [] (some "  ") rfl).1 rfl,
   (refineText_empty_result_returns_original "hi" RefineMode.polish
      (fun _ => Except.ok (some "  ")) [] (some "  ") rfl).2
      (by decide)⟩

/-! ### C7 -/

/-- C7: `refineText` never appends a record to the activity log — on every
path, successful or failed, the log it returns is the log it was given. -/
theorem refineText_preserves_history
    (text : String) (mode : RefineMode)
    (generate : String → Except String (Option String))
    (history : List TranslationRecord) :
    (refineText text mode generate history).2 = history := by
  unfold refineText
  cases generate (refinePrompt mode text) <;> rfl

/-! ### C5 -/

/-- The number of history records falling on calendar day `d`. -/
def countOnDay (d : Int) (history : List TranslationRecord) : Nat :=
  (history.filter (fun r => recDay r == d)).length

/-- Counting over a cons: the head contributes exactly when it falls on
the day. -/
theorem countOnDay_cons (d : Int) (r : TranslationRecord)
    (t : List TranslationRecord) :
    countOnDay d (r :: t) =
      (if recDay r = d then 1 else 0) + countOnDay d t := by
  simp only [countOnDay, List.filter_cons]
  by_cases h : recDay r = d
  · simp [h]
    omega
  · simp [h]

/-- One pass of the daily-activity `forEach` over the history adds to each
pre-seeded day its record count, leaving keys and order untouched. -/
theorem dailyActivity_foldl (history : List TranslationRecord) :
    ∀ l : List (Int × Nat),
      history.foldl (fun acc r => bumpIfPresent (recDay r) acc) l =
        l.map (fun p => (p.1, p.2 + countOnDay p.1 history)) := by
  induction history with
  | nil =>
      intro l
      simp [countOnDay]
  | cons r t ih =>
      intro l
      rw [List.foldl_cons, ih, bumpIfPresent, List.map_map]
      apply List.map_congr_left
      intro p _
      by_cases hp : p.1 = recDay r
      · simp only [Function.comp_apply, if_pos hp, countOnDay_cons, ← hp,
          if_pos rfl]
        simp [Prod.ext_iff]
        omega
      · simp only [Function.comp_apply, if_neg hp, countOnDay_cons]
        rw [if_neg (fun h => hp h.symm)]
        simp

/-- C5: for every log state, `getAnalytics` produces a `dailyActivity`
series that is exactly the 7-day window `today−6 … today`, in ascending
order ending on the current day, each day paired with the number of
records on that day — in particular 7 entries always, and days with no
records carry count 0. -/
theorem getAnalytics_dailyActivity_seven_days (today : Int)
    (history : List TranslationRecord) :
    (getAnalytics today history).dailyActivity =
      (List.range 7).map
        (fun (j : Nat) =>
          (today - 6 + (j : Int),
            countOnDay (today - 6 + (j : Int)) history)) ∧
    (getAnalytics today history).dailyActivity.length = 7 ∧
    List.Chain' (· < ·)
      ((getAnalytics today history).dailyActivity.map Prod.fst) ∧
    ((getAnalytics today history).dailyActivity.map Prod.fst).getLast? =
      some today := by
  have hmain : (getAnalytics today history).dailyActivity =
      (List.range 7).map
        (fun (j : Nat) =>
          (today - 6 + (j : Int),
            countOnDay (today - 6 + (j : Int)) history)) := by
    show dailyActivity today history = _
    rw [dailyActivity, dailyActivity_foldl, seedDays, List.map_map]
    apply List.map_congr_left
    intro j _
    simp
  refine ⟨hmain, ?_, ?_, ?_⟩
  · rw [hmain]
    simp
  · rw [hmain, List.map_map]
    rw [show List.range 7 = [0, 1, 2, 3, 4, 5, 6] from rfl]
    simp only [List.map_cons, List.map_nil, Function.comp_apply,
      List.chain'_cons, List.chain'_singleton]
    refine ⟨?_, ?_, ?_, ?_, ?_, ?_, trivial⟩ <;> push_cast <;> omega
  · rw [hmain, List.map_map]
    rw [show List.range 7 = [0, 1, 2, 3, 4, 5, 6] from rfl]
    simp only [List.map_cons, List.map_nil, Function.comp_apply,
      List.getLast?_cons, List.getLast?_singleton]
    norm_num

/-! ### C10 -/

/-- The total of the counter values of a language-distribution
association list. -/
def sumCounts (l : List (String × Nat)) : Nat :=
  (l.map Prod.snd).sum

/-- Bumping a key adds exactly one to the total count, whether the key
already exists (incremented in place) or is new (appended with count 1). -/
theorem bumpKey_sumCounts (key : String) :
    ∀ l : List (String × Nat), sumCounts (bumpKey key l) = sumCounts l + 1 := by
  intro l
  induction l with
  | nil => rfl
  | cons p t ih =>
      obtain ⟨k, v⟩ := p
      by_cases h : k = key
      · simp [bumpKey, h, sumCounts]
        omega
      · simp only [bumpKey, if_neg h]
        simp only [sumCounts, List.map_cons, List.sum_cons] at ih ⊢
        omega

/-- One pass of the language-distribution `forEach` adds the history
length to the total of the counters. -/
theorem languageDistribution_foldl (history : List TranslationRecord) :
    ∀ l : List (String × Nat),
      sumCounts (history.foldl (fun acc r => bumpKey (langKey r) acc) l) =
        sumCounts l + history.length := by
  induction history with
  | nil =>
      intro l
      simp
  | cons r t ih =>
      intro l
      rw [List.foldl_cons, ih, bumpKey_sumCounts]
      simp only [List.length_cons]
      omega

/-- C10: for every log state, the counts of
`getAnalytics().languageDistribution` add up to `totalTranslations` —
every record lands in exactly one bucket — and the bucket key of a record
is the display name its `targetLang` code maps to in the static language
table, or the raw code itself when the code is not in the table. -/
theorem getAnalytics_languageDistribution_sum (today : Int)
    (history : List TranslationRecord) :
    sumCounts (getAnalytics today history).languageDistribution =
      (getAnalytics today history).totalTranslations ∧
    ∀ r : TranslationRecord,
      langKey r =
        ((LANGUAGES.find? (fun l => l.code == r.targetLang)).map
          Language.name).getD r.targetLang := by
  constructor
  · show sumCounts (languageDistribution history) = history.length
    rw [languageDistribution, languageDistribution_foldl]
    simp [sumCounts]
  · intro r
    cases hfind : LANGUAGES.find? (fun l => l.code == r.targetLang) with
    | none => simp [langKey, hfind, jsOrDefault]
    | some l =>
        have hmem : l ∈ LANGUAGES := List.mem_of_find?_eq_some hfind
        have hne : l.name ≠ "" := by
          have hall : ∀ x ∈ LANGUAGES, x.name ≠ "" := by decide
          exact hall l hmem
        simp [langKey, hfind, jsOrDefault, hne]

/-! ### C8 -/

/-- Reading back the two's-complement little-endian byte pair of an
in-range 16-bit sample recovers the sample exactly. -/
theorem toSigned16_int16ToBytes (s : Int) (h1 : -32768 ≤ s)
    (h2 : s < 32768) :
    toSigned16 ((s % 65536).toNat % 256) ((s % 65536).toNat / 256) = s := by
  unfold toSigned16
  have hmod : (s % 65536).toNat % 256 + 256 * ((s % 65536).toNat / 256) =
      (s % 65536).toNat := Nat.mod_add_div _ _
  rw [hmod]
  split <;> omega

/-- `bytesToInt16List` inverts `int16ToBytes` on one in-range sample. -/
theorem bytesToInt16List_int16ToBytes (s : Int) (h1 : -32768 ≤ s)
    (h2 : s < 32768) : bytesToInt16List (int16ToBytes s) = [s] := by
  simp only [int16ToBytes, bytesToInt16List]
  rw [toSigned16_int16ToBytes s h1 h2]

/-- `bytesToInt16List` distributes over an append at an even byte
boundary. -/
theorem bytesToInt16List_append :
    ∀ (l1 l2 : List Nat), l1.length % 2 = 0 →
      bytesToInt16List (l1 ++ l2) =
        bytesToInt16List l1 ++ bytesToInt16List l2
  | [], _, _ => rfl
  | [_], _, h => by simp at h
  | _ :: _ :: t, l2, h => by
      simp only [List.cons_append, bytesToInt16List, List.append_eq]
      rw [bytesToInt16List_append t l2
        (by simp only [List.length_cons] at h; omega)]

/-- An indexed sample of a channel whose members are all in range is in
range (out-of-range indices default to 0, which is in range). -/
theorem getD_sample_range (ch : List Int) (i : Nat)
    (h : ∀ s ∈ ch, -32768 ≤ s ∧ s < 32768) :
    -32768 ≤ ch.getD i 0 ∧ ch.getD i 0 < 32768 := by
  by_cases hi : i < ch.length
  · rw [List.getD_eq_getElem?_getD, List.getElem?_eq_getElem hi]
    simpa using h _ (List.getElem_mem hi)
  · rw [List.getD_eq_getElem?_getD, List.getElem?_eq_none (by omega)]
    norm_num

/-- A flat map whose pieces all have length `k` has length
`(number of pieces) * k`. -/
theorem flatMap_frames_length {α β : Type} (F : β → List α) (k : Nat)
    (hk : ∀ t, (F t).length = k) :
    ∀ I : List β, (I.flatMap F).length = I.length * k
  | [] => by simp
  | t :: T => by
      rw [List.flatMap_cons, List.length_append, hk,
        flatMap_frames_length F k hk T, List.length_cons]
      ring

/-- Decoding one interleaved frame recovers, channel by channel, the
samples at frame index `i`. -/
theorem bytesToInt16List_frame (i : Nat) :
    ∀ chs : List (List Int),
      (∀ ch ∈ chs, ∀ s ∈ ch, -32768 ≤ s ∧ s < 32768) →
      bytesToInt16List
          (chs.flatMap (fun ch => int16ToBytes (ch.getD i 0))) =
        chs.map (fun ch => ch.getD i 0)
  | [], _ => rfl
  | ch :: T, h => by
      have hch := getD_sample_range ch i (h ch (by simp))
      have heven : (int16ToBytes (ch.getD i 0)).length % 2 = 0 := by
        simp [int16ToBytes]
      rw [List.flatMap_cons, List.map_cons,
        bytesToInt16List_append _ _ heven,
        bytesToInt16List_int16ToBytes _ hch.1 hch.2,
        bytesToInt16List_frame i T (fun ch' hch' s hs =>
          h ch' (List.mem_cons_of_mem _ hch') s hs)]
      rfl

/-- Decoding the whole interleaved byte stream yields the frame-major
sample stream. -/
theorem bytesToInt16List_frames (chs : List (List Int))
    (hrange : ∀ ch ∈ chs, ∀ s ∈ ch, -32768 ≤ s ∧ s < 32768) :
    ∀ I : List Nat,
      bytesToInt16List
          (I.flatMap (fun i =>
            chs.flatMap (fun ch => int16ToBytes (ch.getD i 0)))) =
        I.flatMap (fun i => chs.map (fun ch => ch.getD i 0))
  | [] => rfl
  | t :: T => by
      rw [List.flatMap_cons, List.flatMap_cons,
        bytesToInt16List_append _ _
          (by
            rw [flatMap_frames_length
              (fun ch => int16ToBytes (ch.getD t 0)) 2 (fun _ => rfl) chs]
            omega),
        bytesToInt16List_frame t chs hrange,
        bytesToInt16List_frames chs hrange T]

/-- Indexing a frame-major stream whose frames all have length `k` at
position `i * k + c` lands on entry `c` of frame `i`. -/
theorem flatMap_frames_getD {α β : Type} (F : β → List α) (k : Nat)
    (hk : ∀ t, (F t).length = k) (d : α) (db : β) :
    ∀ (I : List β) (i c : Nat), i < I.length → c < k →
      (I.flatMap F).getD (i * k + c) d = (F (I.getD i db)).getD c d
  | [], i, _, hi, _ => absurd hi (by simp)
  | t :: T, 0, c, _, hc => by
      simp only [List.flatMap_cons, List.getD_eq_getElem?_getD,
        Nat.zero_mul, Nat.zero_add]
      rw [List.getElem?_append_left (by rw [hk]; exact hc)]
      simp
  | t :: T, i + 1, c, hi, hc => by
      have harith : (i + 1) * k + c = k + (i * k + c) := by ring
      simp only [List.flatMap_cons, List.getD_eq_getElem?_getD, harith]
      rw [List.getElem?_append_right (by rw [hk]; omega), hk,
        Nat.add_sub_cancel_left]
      have := flatMap_frames_getD F k hk d db T i c
        (Nat.lt_of_succ_lt_succ (by simpa using hi)) hc
      simp only [List.getD_eq_getElem?_getD] at this
      simpa using this

/-- C8: decoding the interleaved little-endian signed 16-bit PCM encoding
of per-channel 16-bit samples deinterleaves them back into per-channel
samples normalized by division by 32768 — exactly, hence in particular
each original (normalized) sample value is recovered within the
quantization error 1/32768. -/
theorem decodeAudioData_encodePCM_roundtrip
    (chs : List (List Int)) (n sampleRate : Nat)
    (hn : ∀ ch ∈ chs, ch.length = n)
    (hrange : ∀ ch ∈ chs, ∀ s ∈ ch, -32768 ≤ s ∧ s < 32768) :
    (decodeAudioData (encodePCM chs n) sampleRate chs.length).channelData =
      chs.map (fun ch => ch.map (fun (s : Int) => (s : ℚ) / 32768)) ∧
    ∀ c i, c < chs.length → i < n →
      |((decodeAudioData (encodePCM chs n) sampleRate
            chs.length).channelData.getD c []).getD i 0 -
          ((chs.getD c []).getD i 0 : ℚ) / 32768| ≤ 1 / 32768 := by
  have hdec : bytesToInt16List (encodePCM chs n) =
      (List.range n).flatMap (fun i => chs.map (fun ch => ch.getD i 0)) :=
    bytesToInt16List_frames chs hrange (List.range n)
  have hlen : (bytesToInt16List (encodePCM chs n)).length =
      n * chs.length := by
    rw [hdec, flatMap_frames_length _ chs.length
      (fun t => List.length_map _ _) (List.range n), List.length_range]
  have hmain :
      (decodeAudioData (encodePCM chs n) sampleRate
        chs.length).channelData =
      chs.map (fun ch => ch.map (fun (s : Int) => (s : ℚ) / 32768)) := by
    rcases Nat.eq_zero_or_pos chs.length with hk | hk
    · rw [List.length_eq_zero] at hk
      subst hk
      rfl
    · show (List.range chs.length).map _ = _
      have hframes : (bytesToInt16List (encodePCM chs n)).length /
          chs.length = n := by
        rw [hlen, Nat.mul_div_cancel _ hk]
      apply List.ext_getElem
      · simp
      · intro c hc1 hc2
        rw [List.getElem_map, List.getElem_map, List.getElem_range]
        have hc : c < chs.length := by simpa using hc1
        have hchlen : chs[c].length = n :=
          hn chs[c] (List.getElem_mem (by simpa using hc2))
        apply List.ext_getElem
        · simp [hframes, hchlen]
        · intro i hi1 hi2
          rw [List.getElem_map, List.getElem_map, List.getElem_range]
          have hi : i < n := by simpa [hframes] using hi1
          have hri : (List.range n).getD i 0 = i := by
            rw [List.getD_eq_getElem?_getD, List.getElem?_range hi,
              Option.getD_some]
          congr 1
          rw [hdec, flatMap_frames_getD _ chs.length
            (fun t => List.length_map _ _) 0 0 (List.range n) i c
            (by simpa using hi) hc, hri,
            List.getD_eq_getElem?_getD, List.getElem?_map,
            List.getElem?_eq_getElem hc]
          simp only [Option.map_some', Option.getD_some]
          rw [List.getD_eq_getElem?_getD,
            List.getElem?_eq_getElem (by rw [hchlen]; exact hi),
            Option.getD_some]
  refine ⟨hmain, ?_⟩
  intro c i hc hi
  have hchlen : chs[c].length = n := hn chs[c] (List.getElem_mem hc)
  have h1 : (chs.map
        (fun ch => ch.map (fun (s : Int) => (s : ℚ) / 32768))).getD c [] =
      chs[c].map (fun (s : Int) => (s : ℚ) / 32768) := by
    rw [List.getD_eq_getElem?_getD, List.getElem?_map,
      List.getElem?_eq_getElem hc]
    simp
  have h2 : (chs[c].map (fun (s : Int) => (s : ℚ) / 32768)).getD i 0 =
      (chs[c][i] : ℚ) / 32768 := by
    rw [List.getD_eq_getElem?_getD, List.getElem?_map,
      List.getElem?_eq_getElem (by rw [hchlen]; exact hi)]
    simp
  have h3 : chs.getD c [] = chs[c] := by
    rw [List.getD_eq_getElem?_getD, List.getElem?_eq_getElem hc,
      Option.getD_some]
  have h4 : chs[c].getD i 0 = chs[c][i] := by
    rw [List.getD_eq_getElem?_getD,
      List.getElem?_eq_getElem (by rw [hchlen]; exact hi),
      Option.getD_some]
  rw [hmain, h1, h2, h3, h4, sub_self, abs_zero]
  norm_num

/-- Witness for C8: a concrete two-channel, two-frame stream (containing
both extreme sample values) decodes back to the normalized samples. -/
theorem decodeAudioData_encodePCM_roundtrip_witness :
    (decodeAudioData (encodePCM [[1000, -1000], [32767, -32768]] 2) 24000
        ([[1000, -1000], [32767, -32768]] : List (List Int)).length
      ).channelData =
      ([[1000, -1000], [32767, -32768]] : List (List Int)).map
        (fun ch => ch.map (fun (s : Int) => (s : ℚ) / 32768)) :=
  (decodeAudioData_encodePCM_roundtrip [[1000, -1000], [32767, -32768]] 2
    24000 (by decide) (by decide)).1

end LinguistAI
